import Mathlib

/-!
Verification development for the papergres data-access library.

The Go source is shallowly embedded: reflection-produced field lists become
explicit `List (Field α)` values, `interface{}` argument values become a type
parameter `α`, Go `error` values become `Option String` (the message), and the
database/driver layer (sqlx) becomes an explicit oracle record (`DB`, `Stmt`).
Functions are translated clause by clause from the Go source (schema.go,
papergres.go and the result/query/repeat files).
-/

set_option maxRecDepth 4000

namespace Papergres

/-- Go `strings.TrimRight(s, cutset)` with a single-character cutset:
removes every trailing occurrence of `c`. -/
def trimRightChar (s : String) (c : Char) : String :=
  ⟨(s.data.reverse.dropWhile (fun x => x == c)).reverse⟩

/-- A struct field as produced by the reflection introspector `fields`
(reflect helpers file): runtime value, type label, field name, `db` tag and
the `db_pk` primary-key marker.  The value type is a parameter `α` standing
for Go's `interface{}`. -/
structure Field (α : Type) where
  value : α
  typeof : String
  name : String
  tag : String
  isPrimary : Bool
  deriving DecidableEq, Repr

/-- A record value together with what reflection can observe of it:
`getTypeName obj` and `fields obj` from the reflect helpers. -/
structure Record (α : Type) where
  typeName : String
  fields : List (Field α)
  deriving DecidableEq, Repr

/-- `goToSQLName` (schema.go lines 140-151): camel case to snake case.
Iterates over the runes; before a rune that is upper case an underscore is
appended unless the accumulator is still empty; then the lower-cased rune is
appended.  `unicode.IsUpper`/`strings.ToLower` are modelled by `Char.isUpper`/
`Char.toLower`, which agree with Go on ASCII. -/
def goToSQLName (name : String) : String :=
  name.data.foldl
    (fun s c => (if c.isUpper && !(s == "") then s ++ "_" else s) ++ c.toLower.toString)
    ""

/-- `getColumnName` (schema.go lines 127-136): the `db` tag when supplied,
otherwise the snake-cased field name.  The Go receiver is a `*Field`; the
nil-pointer case is handled at the (sole) call site `insertSQL` instead. -/
def getColumnName {α : Type} (f : Field α) : String :=
  if f.tag ≠ "" then f.tag else goToSQLName f.name

/-- `prepareFields` (schema.go lines 166-179).  The Go loop keeps every
non-primary field; a primary field overwrites `primary` and is kept only when
`withPK` is set. -/
def prepareFields {α : Type} (obj : Record α) (withPK : Bool) :
    List (Field α) × Option (Field α) :=
  obj.fields.foldl
    (fun acc f =>
      if f.isPrimary then
        (if withPK then acc.1 ++ [f] else acc.1, some f)
      else
        (acc.1 ++ [f], acc.2))
    ([], none)

/-- `insertArgs` (schema.go lines 154-161): the values of the prepared fields,
in order. -/
def insertArgs {α : Type} (obj : Record α) (withPK : Bool) : List α :=
  ((prepareFields obj withPK).1).map Field.value

/-- `insertSQL` (schema.go lines 88-120).  Builds the column list and the
`$1..$n` placeholder list in one indexed loop, trims the trailing commas and
appends the `RETURNING` clause.  In Go, `getColumnName(primary)` dereferences
`primary`; when no field is marked primary that pointer is nil and the call
panics — the panic is modelled by the `none` result. -/
def insertSQL {α : Type} (obj : Record α) (schema : String) (withPK : Bool) :
    Option String :=
  let tname := schema ++ "." ++ goToSQLName obj.typeName
  let fp := prepareFields obj withPK
  let sv := fp.1.enum.foldl
    (fun (sv : String × String) (p : Nat × Field α) =>
      (sv.1 ++ "\n\t" ++ getColumnName p.2 ++ ",",
       sv.2 ++ "\n\t$" ++ Nat.repr (p.1 + 1) ++ ","))
    ("INSERT INTO " ++ tname ++ " (", "")
  let sql := trimRightChar sv.1 ','
  let sql := sql ++ "\n)\nVALUES (" ++ sv.2
  let sql := trimRightChar sql ','
  let sql := sql ++ "\n)\n"
  match fp.2 with
  | none => none
  | some p => some (sql ++ "RETURNING " ++ getColumnName p ++ " as LastInsertId;")

/-- `meta` (result file lines 35-38): scan target for `RETURNING ... as
LastInsertId`.  `PrimaryKey` (`interface{}`, in practice an `int64` per the
comment in `newMeta`) is modelled as `Int`; `RowsAffected` is `int64`. -/
structure Meta where
  lastInsertId : Int
  rowsAffected : Int
  deriving DecidableEq, Repr

/-- `newMeta` (result file lines 40-47): default values `{0, -1}`. -/
def newMeta : Meta := { lastInsertId := 0, rowsAffected := -1 }

/-- `LastInsertId` component of a `Result`.  Go `error` is `Option String`. -/
structure LastInsertId where
  id : Int
  err : Option String
  deriving DecidableEq, Repr

/-- `RowsAffected` component of a `Result`. -/
structure RowsAffected where
  count : Int
  err : Option String
  deriving DecidableEq, Repr

/-- `Result` (result file lines 10-17).  `ExecutionTime` is wall-clock
instrumentation and is not modelled. -/
structure Result where
  lastInsertId : LastInsertId
  rowsAffected : RowsAffected
  rowsReturned : Nat
  err : Option String
  deriving DecidableEq, Repr

/-- `NewResult` (result file lines 49-56): all components zero / nil. -/
def NewResult : Result :=
  { lastInsertId := { id := 0, err := none },
    rowsAffected := { count := 0, err := none },
    rowsReturned := 0,
    err := none }

/-- `Result.setMeta` (result file lines 87-97): stores the observed values and
sets the per-component errors exactly on the sentinel values `0` and `-1`. -/
def Result.setMeta (r : Result) (m : Meta) : Result :=
  { r with
    lastInsertId :=
      { id := m.lastInsertId,
        err := if m.lastInsertId = 0 then some "no LastInsertId returned"
               else r.lastInsertId.err },
    rowsAffected :=
      { count := m.rowsAffected,
        err := if m.rowsAffected = -1 then some "no RowsAffected returned"
               else r.rowsAffected.err } }

/-- `Query` (query file lines 10-16): SQL text, positional args, insert flag.
The `Database` back-reference is carried by the `DB` oracle instead. -/
structure Query (α : Type) where
  sql : String
  args : List α
  insert : Bool

/-- A prepared statement handle (`sqlx.Stmt`), as the opaque driver capability
the repeat runner uses: `Get` scans one row into a `meta` (or fails with an
error message), `Select` fills the destination slice and the observed
`getLen dest` after the call is returned alongside the possible error. -/
structure Stmt (α : Type) where
  get : List α → Except String Meta
  select : List α → Option String × Nat

/-- The opaque connection capability (`sqlx.DB` reached through `open`):
`Preparex` and the direct `Get`-into-`meta` used by `exec(q, false)`. -/
structure DB (α : Type) where
  prepare : String → Except String (Stmt α)
  getMeta : String → List α → Except String Meta

/-- `Repeat` (repeat file lines 12-16).  `SelectParamsFn` returns a
destination and the argument list; the destination is only passed to the
driver's `Select`, whose observed effect is already part of `Stmt.select`, so
the parameter function is modelled by the argument list it yields. -/
structure RepeatCmd (α : Type) where
  query : Query α
  paramsFn : Nat → List α
  n : Nat

/-- One iteration of `Repeat.Exec` (repeat file lines 42-72), i.e.
`execCommand` applied to the closure `cmd`: a fresh `NewResult`, whose `Err`
is the value `cmd` returned.  On the insert path `result.setMeta(meta)` runs
even when `stmt.Get` failed, with `meta` still holding the `newMeta`
defaults. -/
def iterResult {α : Type} (stmt : Stmt α) (rq : RepeatCmd α) (i : Nat) : Result :=
  let args := rq.paramsFn i
  if rq.query.insert then
    match stmt.get args with
    | .ok m => NewResult.setMeta m
    | .error e => { NewResult.setMeta newMeta with err := some e }
  else
    let sr := stmt.select args
    { NewResult with rowsReturned := sr.2, err := sr.1 }

/-- `mergeErrs` (repeat file lines 81-93): `fmt.Sprintln` appends each
non-nil error message and a newline, trailing newlines are trimmed, and an
empty string yields a nil error. -/
def mergeErrs (errs : List (Option String)) : Option String :=
  let s := errs.foldl
    (fun s e => match e with | some m => s ++ m ++ "\n" | none => s) ""
  let s := trimRightChar s '\n'
  if s ≠ "" then some s else none

/-- `Repeat.Exec` (repeat file lines 21-77).  The statement is prepared first
(failure returns `(nil, err)` before anything runs); then each iteration's
closure is invoked synchronously — the `go` keyword is deliberately absent
(comment at lines 43-47) — storing `results[i]` and collecting non-nil
iteration errors in index order. -/
def repeatExec {α : Type} (db : DB α) (rq : RepeatCmd α) :
    Option (List Result) × Option String :=
  match db.prepare rq.query.sql with
  | .error e => (none, some e)
  | .ok stmt =>
    let results := (List.range rq.n).map (iterResult stmt rq)
    let errs := (results.map Result.err).filter Option.isSome
    (some results, mergeErrs errs)

/-- `database/sql` row fetch used by `Get` (`Query.ExecSingle`'s driver call):
with no rows it fails with `sql.ErrNoRows`; otherwise it scans the first row
(per the doc comment on `ExecSingle`, query file lines 73-75). -/
def dbGet {ρ : Type} (rows : List ρ) : Except String ρ :=
  match rows with
  | [] => .error "sql: no rows in result set"
  | r :: _ => .ok r

/-- `Query.ExecSingle` (query file lines 76-86) through `execDB`/`execCommand`:
on driver success `RowsReturned` is set to 1; the bound destination value is
returned alongside the `Result`. -/
def execSingle {ρ : Type} (rows : List ρ) : Result × Option ρ :=
  match dbGet rows with
  | .ok row => ({ NewResult with rowsReturned := 1 }, some row)
  | .error e => ({ NewResult with err := some e }, none)

/-- `exec(q, false)` (exec file lines 51-88, the `Get` branch used by
`Query.Exec`): scan into a fresh `meta`; on error `setMeta` is skipped and the
error becomes `Result.Err`; on success the meta is stored. -/
def execQueryMeta {α : Type} (db : DB α) (q : Query α) : Result :=
  match db.getMeta q.sql q.args with
  | .error e => { NewResult with err := some e }
  | .ok m => NewResult.setMeta m

/-- A value handed to `Schema.InsertAll` / `convertToSlice`: either a slice of
records or some non-slice value (whose identity is irrelevant: only its kind
is inspected). -/
inductive GoInput (α : Type) where
  | slice (l : List (Record α))
  | nonSlice
  deriving DecidableEq

/-- `convertToSlice` (reflect helpers lines 37-47): errors on non-slice
input, otherwise yields the elements. -/
def convertToSlice {α : Type} (v : GoInput α) : Except String (List (Record α)) :=
  match v with
  | .nonSlice => .error "value is not a slice"
  | .slice l => .ok l

/-- `Schema.generateInsertQuery` (schema.go lines 79-85): build SQL and args,
mark the query as an insert.  `none` propagates the `insertSQL` panic. -/
def generateInsertQuery {α : Type} (obj : Record α) (schemaName : String)
    (withPK : Bool) : Option (Query α) :=
  (insertSQL obj schemaName withPK).map
    (fun sql => { sql := sql, args := insertArgs obj withPK, insert := true })

/-- `Schema.Insert` (schema.go lines 35-39): `Query(sql, args).Exec()`, where
`Exec` is `exec(q, false)`.  `none` propagates the `insertSQL` panic. -/
def schemaInsert {α : Type} (db : DB α) (schemaName : String) (obj : Record α) :
    Option Result :=
  match insertSQL obj schemaName false with
  | none => none
  | some sql =>
    some (execQueryMeta db { sql := sql, args := insertArgs obj false, insert := false })

/-- `Schema.InsertAll` (schema.go lines 61-76): convert to a slice (errors on
non-slice), reject the empty slice, then build the insert query from the first
element and run it as a `Repeat` over `insertArgs slice[i] false`.  The outer
`none` propagates the `insertSQL` panic reached through `GenerateInsert`. -/
def insertAll {α : Type} (db : DB α) (schemaName : String) (objs : GoInput α) :
    Option (Option (List Result) × Option String) :=
  match convertToSlice objs with
  | .error e => some (none, some e)
  | .ok slice =>
    match slice with
    | [] => some (none, some "empty slice")
    | o :: _ =>
      match generateInsertQuery o schemaName false with
      | none => none
      | some q =>
        some (repeatExec db
          { query := q,
            paramsFn := fun i => insertArgs (slice.getD i o) false,
            n := slice.length })

/-- Scheduling events of one `Repeat.Exec` run (repeat file lines 39-74):
`taskStart i` marks `wg.Add(1)` plus entry into iteration `i`'s closure,
`taskEnd i` marks `wg.Done()` (closure return), `barrier` marks `wg.Wait()`.
Because the closure is invoked synchronously (no `go` keyword, lines 42-47),
each iteration runs to completion inside the loop body before the next
iteration begins. -/
inductive RepeatEvent where
  | taskStart (i : Nat)
  | taskEnd (i : Nat)
  | barrier
  deriving DecidableEq, Repr

/-- The event trace of `Repeat.Exec` for iteration count `n`, read off the
(sequential) control flow of the source. -/
def repeatTrace (n : Nat) : List RepeatEvent :=
  ((List.range n).flatMap (fun i => [.taskStart i, .taskEnd i])) ++ [.barrier]

/-- Position of the first occurrence of an event in a trace (length of the
trace when absent). -/
def epos : List RepeatEvent → RepeatEvent → Nat
  | [], _ => 0
  | x :: xs, e => if x = e then 0 else epos xs e + 1

/-! ### String helpers used to state the specification-side forms -/

/-- Every list element followed by the separator, concatenated. -/
def joinSuffixed (sep : String) : List String → String
  | [] => ""
  | p :: ps => p ++ sep ++ joinSuffixed sep ps

/-- Separator-interleaved concatenation (no trailing separator). -/
def sepJoin (sep : String) : List String → String
  | [] => ""
  | [p] => p
  | p :: ps => p ++ sep ++ sepJoin sep ps

theorem joinSuffixed_append (sep : String) (xs ys : List String) :
    joinSuffixed sep (xs ++ ys) = joinSuffixed sep xs ++ joinSuffixed sep ys := by
  induction xs with
  | nil => apply String.ext; simp [joinSuffixed]
  | cons p ps ih =>
    apply String.ext
    simp [joinSuffixed, ih]

theorem sepJoin_concat (sep : String) (xs : List String) (q : String) :
    sepJoin sep (xs ++ [q]) = joinSuffixed sep xs ++ q := by
  induction xs with
  | nil => apply String.ext; simp [sepJoin, joinSuffixed]
  | cons p ps ih =>
    cases ps with
    | nil => apply String.ext; simp [sepJoin, joinSuffixed]
    | cons r rs =>
      apply String.ext
      have := congrArg String.data ih
      simp [sepJoin, joinSuffixed] at this ⊢
      simp [this]

theorem trimRightChar_append_sep (s : String) (c : Char) :
    trimRightChar (s ++ ⟨[c]⟩) c = trimRightChar s c := by
  apply String.ext
  simp [trimRightChar]

theorem trimRightChar_eq_self (s : String) (c : Char)
    (h : s.data.getLast? ≠ some c) : trimRightChar s c = s := by
  apply String.ext
  show (s.data.reverse.dropWhile (fun x => x == c)).reverse = s.data
  rcases hrev : s.data.reverse with _ | ⟨x, t⟩
  · simpa using congrArg List.reverse hrev
  · have hlast : s.data.getLast? = some x := by
      rw [← List.head?_reverse, hrev]; rfl
    have hx : (x == c) = false := by
      have hxc : x ≠ c := fun hxc => h (hxc ▸ hlast)
      simpa using hxc
    rw [List.dropWhile_cons, hx]
    simpa using (congrArg List.reverse hrev).symm

theorem data_ne_nil_iff (s : String) : s.data ≠ [] ↔ s ≠ "" := by
  constructor
  · intro h hs; exact h (by simp [hs])
  · intro h hd; exact h (String.ext (by simp [hd]))

theorem getLast?_data_append (x q : String) (h : q.data ≠ []) :
    (x ++ q).data.getLast? = q.data.getLast? := by
  rw [String.data_append, List.getLast?_append]
  rcases hq : q.data.getLast? with _ | a
  · exact absurd (List.getLast?_eq_none_iff.mp hq) h
  · rfl

theorem trimRightChar_join (c : Char) (sep pre : String) (ps : List String)
    (hsep : sep = ⟨[c]⟩)
    (hpre : pre.data.getLast? ≠ some c)
    (hps : ∀ p ∈ ps, p.data ≠ [] ∧ p.data.getLast? ≠ some c) :
    trimRightChar (pre ++ joinSuffixed sep ps) c = pre ++ sepJoin sep ps := by
  rcases List.eq_nil_or_concat ps with h | ⟨xs, q, h⟩
  · subst h
    show trimRightChar (pre ++ "") c = pre ++ ""
    rw [String.append_empty, trimRightChar_eq_self pre c hpre]
  · rw [List.concat_eq_append] at h
    subst h
    have hq := hps q (by simp)
    rw [joinSuffixed_append, sepJoin_concat]
    have h1 : pre ++ (joinSuffixed sep xs ++ joinSuffixed sep [q])
        = ((pre ++ joinSuffixed sep xs) ++ q) ++ ⟨[c]⟩ := by
      apply String.ext
      simp [joinSuffixed, hsep]
    rw [h1, trimRightChar_append_sep, trimRightChar_eq_self, String.append_assoc]
    rw [getLast?_data_append _ _ hq.1]
    exact hq.2

theorem sepJoin_ne_empty (sep : String) (ps : List String)
    (hne : ps ≠ []) (h : ∀ p ∈ ps, p.data ≠ []) : sepJoin sep ps ≠ "" := by
  rw [← data_ne_nil_iff]
  cases ps with
  | nil => exact absurd rfl hne
  | cons p rest =>
    have hp := h p (by simp)
    cases rest with
    | nil => simpa [sepJoin] using hp
    | cons r rs =>
      show (sepJoin sep (p :: r :: rs)).data ≠ []
      rw [show sepJoin sep (p :: r :: rs) = p ++ sep ++ sepJoin sep (r :: rs) from rfl]
      simp only [String.data_append]
      intro hcontra
      rcases List.append_eq_nil.mp hcontra with ⟨h2, _⟩
      rcases List.append_eq_nil.mp h2 with ⟨h3, _⟩
      exact hp h3

/-! ### Characterizations of `prepareFields` -/

theorem prepareFields_loop {α : Type} (w : Bool) (fs : List (Field α))
    (l : List (Field α)) (p : Option (Field α)) :
    fs.foldl
      (fun acc f =>
        if f.isPrimary then
          (if w then acc.1 ++ [f] else acc.1, some f)
        else
          (acc.1 ++ [f], acc.2))
      (l, p)
    = (l ++ fs.filter (fun f => !f.isPrimary || w),
       Option.or (fs.reverse.find? (fun f => f.isPrimary)) p) := by
  induction fs generalizing l p with
  | nil => simp
  | cons f fs ih =>
    by_cases hf : f.isPrimary
    · simp only [List.foldl_cons, hf, if_true]
      rw [ih, Prod.ext_iff]
      refine ⟨?_, ?_⟩
      · simp only [List.filter_cons, hf, Bool.not_true, Bool.false_or]
        cases w <;> simp
      · simp [List.find?_append, List.find?_cons, hf, Option.or_assoc]
    · have hf' : f.isPrimary = false := by simpa using hf
      simp only [List.foldl_cons, hf', Bool.false_eq_true, if_false]
      rw [ih, Prod.ext_iff]
      refine ⟨?_, ?_⟩
      · simp [List.filter_cons, hf']
      · simp [List.find?_append, List.find?_cons, hf']

theorem prepareFields_fst {α : Type} (obj : Record α) (w : Bool) :
    (prepareFields obj w).1 = obj.fields.filter (fun f => !f.isPrimary || w) := by
  unfold prepareFields
  rw [prepareFields_loop]
  simp

theorem prepareFields_snd {α : Type} (obj : Record α) (w : Bool) :
    (prepareFields obj w).2 = obj.fields.reverse.find? (fun f => f.isPrimary) := by
  unfold prepareFields
  rw [prepareFields_loop]
  simp

theorem prepareFields_snd_eq_none_iff {α : Type} (obj : Record α) (w : Bool) :
    (prepareFields obj w).2 = none ↔ ∀ f ∈ obj.fields, f.isPrimary = false := by
  rw [prepareFields_snd, List.find?_eq_none]
  constructor
  · intro h f hf
    simpa using h f (by simpa using hf)
  · intro h f hf
    simpa using h f (by simpa using hf)

/-! ### Decimal representations contain no comma -/

theorem digitChar_ne_comma (m : Nat) : Nat.digitChar m ≠ ',' := by
  by_cases hm : m < 16
  · revert hm
    revert m
    decide
  · unfold Nat.digitChar
    rw [if_neg (by omega : ¬ m = 0), if_neg (by omega : ¬ m = 1),
      if_neg (by omega : ¬ m = 2), if_neg (by omega : ¬ m = 3),
      if_neg (by omega : ¬ m = 4), if_neg (by omega : ¬ m = 5),
      if_neg (by omega : ¬ m = 6), if_neg (by omega : ¬ m = 7),
      if_neg (by omega : ¬ m = 8), if_neg (by omega : ¬ m = 9),
      if_neg (by omega : ¬ m = 10), if_neg (by omega : ¬ m = 11),
      if_neg (by omega : ¬ m = 12), if_neg (by omega : ¬ m = 13),
      if_neg (by omega : ¬ m = 14), if_neg (by omega : ¬ m = 15)]
    decide

theorem toDigitsCore_ne_comma (fuel n : Nat) (ds : List Char)
    (h : ∀ c ∈ ds, c ≠ ',') :
    ∀ c ∈ Nat.toDigitsCore 10 fuel n ds, c ≠ ',' := by
  induction fuel generalizing n ds with
  | zero => simpa [Nat.toDigitsCore] using h
  | succ fuel ih =>
    unfold Nat.toDigitsCore
    dsimp only
    split
    · intro c hc
      rcases List.mem_cons.mp hc with hc | hc
      · exact hc ▸ digitChar_ne_comma _
      · exact h c hc
    · exact ih _ _ (by
        intro c hc
        rcases List.mem_cons.mp hc with hc | hc
        · exact hc ▸ digitChar_ne_comma _
        · exact h c hc)

theorem repr_ne_comma (n : Nat) : ∀ c ∈ (Nat.repr n).data, c ≠ ',' := by
  intro c hc
  exact toDigitsCore_ne_comma (n + 1) n [] (by simp) c hc

theorem repr_ne_nil (n : Nat) : (Nat.repr n).data ≠ [] := by
  show Nat.toDigits 10 n ≠ []
  have hcore : ∀ fuel m (ds : List Char), ds ≠ [] → Nat.toDigitsCore 10 fuel m ds ≠ [] := by
    intro fuel
    induction fuel with
    | zero => intro m ds h; simpa [Nat.toDigitsCore] using h
    | succ fuel ih =>
      intro m ds h
      unfold Nat.toDigitsCore
      dsimp only
      split
      · simp
      · exact ih _ _ (by simp)
  unfold Nat.toDigits Nat.toDigitsCore
  dsimp only
  split
  · simp
  · exact hcore _ _ _ (by simp)

/-! ### The `insertSQL` loop and its canonical form -/

/-- The column-list / placeholder-list loop of `insertSQL`, characterized:
starting the enumeration at `k`, the two accumulators grow by the
comma-suffixed column pieces and the comma-suffixed `$k+1, $k+2, ...`
placeholder pieces. -/
theorem insertSQL_loop {α : Type} (fs : List (Field α)) (k : Nat) (s v : String) :
    (List.enumFrom k fs).foldl
      (fun (sv : String × String) (p : Nat × Field α) =>
        (sv.1 ++ "\n\t" ++ getColumnName p.2 ++ ",",
         sv.2 ++ "\n\t$" ++ Nat.repr (p.1 + 1) ++ ","))
      (s, v)
    = (s ++ joinSuffixed "," (fs.map (fun f => "\n\t" ++ getColumnName f)),
       v ++ joinSuffixed ","
         ((List.range fs.length).map (fun i => "\n\t$" ++ Nat.repr (k + i + 1)))) := by
  induction fs generalizing k s v with
  | nil => simp [joinSuffixed, String.append_empty]
  | cons f fs ih =>
    rw [List.enumFrom_cons, List.foldl_cons, ih, Prod.ext_iff]
    refine ⟨?_, ?_⟩
    · show (s ++ "\n\t" ++ getColumnName f ++ ",") ++ _ = _
      apply String.ext
      simp [joinSuffixed]
    · show (v ++ "\n\t$" ++ Nat.repr (k + 1) ++ ",") ++ _ = _
      apply String.ext
      have harg : ∀ i : Nat, k + 1 + i + 1 = k + (i + 1) + 1 := by omega
      simp only [List.length_cons, List.range_succ_eq_map, List.map_cons, List.map_map,
        joinSuffixed, Function.comp_def, Nat.succ_eq_add_one, Nat.add_zero,
        String.data_append, harg]
      simp

/-- Canonical INSERT statement, written the way the specification describes
it: the column names of the prepared fields in order, then `$1..$n` in the
same order, then the `RETURNING` clause for the primary column.  This is the
specification-side form that `insertSQL` is proved to refine. -/
def specInsertSQL {α : Type} (obj : Record α) (schema : String) (withPK : Bool)
    (p : Field α) : String :=
  let fs := (prepareFields obj withPK).1
  "INSERT INTO " ++ schema ++ "." ++ goToSQLName obj.typeName ++ " ("
    ++ sepJoin "," (fs.map (fun f => "\n\t" ++ getColumnName f))
    ++ "\n)\nVALUES ("
    ++ sepJoin "," ((List.range fs.length).map (fun i => "\n\t$" ++ Nat.repr (i + 1)))
    ++ "\n)\nRETURNING " ++ getColumnName p ++ " as LastInsertId;"

/-! ### C1: column order, placeholder order, argument order -/

theorem string_empty_append (s : String) : "" ++ s = s := by
  apply String.ext
  simp

/-- C1: for every record object, schema name and `withPK` flag (given that a
primary field exists — otherwise no statement is produced at all, see C10 —
and that no produced column name ends in a comma, which would be eaten by the
`TrimRight`), the INSERT statement produced by `insertSQL` lists the column
names of `prepareFields` in order, the value placeholders are exactly `$1..$n`
in that same order, and `insertArgs` has length `n` with the i-th argument
equal to the value of the field whose column is in position i. -/
theorem insertSQL_column_placeholder_arg_alignment {α : Type}
    (obj : Record α) (schema : String) (withPK : Bool) (p : Field α)
    (hp : (prepareFields obj withPK).2 = some p)
    (hcols : ∀ f ∈ (prepareFields obj withPK).1,
      (getColumnName f).data.getLast? ≠ some ',') :
    insertSQL obj schema withPK = some (specInsertSQL obj schema withPK p)
    ∧ insertArgs obj withPK = ((prepareFields obj withPK).1).map Field.value
    ∧ (insertArgs obj withPK).length = ((prepareFields obj withPK).1).length
    ∧ ∀ i : Nat, (insertArgs obj withPK)[i]?
        = (((prepareFields obj withPK).1)[i]?).map Field.value := by
  refine ⟨?_, rfl, by simp [insertArgs], fun i => by simp [insertArgs]⟩
  have hloop := insertSQL_loop ((prepareFields obj withPK).1) 0
    ("INSERT INTO " ++ (schema ++ "." ++ goToSQLName obj.typeName) ++ " (") ""
  simp only [Nat.zero_add] at hloop
  have hcolpieces : ∀ q ∈ ((prepareFields obj withPK).1).map
      (fun f => "\n\t" ++ getColumnName f), q.data ≠ [] ∧ q.data.getLast? ≠ some ',' := by
    intro q hq
    rcases List.mem_map.mp hq with ⟨f, hf, rfl⟩
    refine ⟨by simp, ?_⟩
    rcases hcn : (getColumnName f).data with _ | ⟨c, cs⟩
    · have hq2 : ("\n\t" ++ getColumnName f).data = ['\n', '\t'] := by
        rw [String.data_append, hcn]
        rfl
      rw [hq2]
      decide
    · rw [getLast?_data_append _ _ (by rw [hcn]; simp)]
      exact hcols f hf
  have hvalpieces : ∀ q ∈ (List.range ((prepareFields obj withPK).1).length).map
      (fun i => "\n\t$" ++ Nat.repr (i + 1)), q.data ≠ [] ∧ q.data.getLast? ≠ some ',' := by
    intro q hq
    rcases List.mem_map.mp hq with ⟨i, _, rfl⟩
    refine ⟨by simp, ?_⟩
    rw [getLast?_data_append _ _ (repr_ne_nil (i + 1))]
    intro hcontra
    exact repr_ne_comma (i + 1) ','
      (List.mem_of_mem_getLast? (show ',' ∈ _ from hcontra)) rfl
  have hpre1 : (("INSERT INTO " ++ (schema ++ "." ++ goToSQLName obj.typeName)
      ++ " (")).data.getLast? ≠ some ',' := by
    rw [getLast?_data_append _ " (" (by decide)]
    decide
  have htrim1 := trimRightChar_join ',' ","
    ("INSERT INTO " ++ (schema ++ "." ++ goToSQLName obj.typeName) ++ " (")
    (((prepareFields obj withPK).1).map (fun f => "\n\t" ++ getColumnName f))
    (String.ext rfl) hpre1 hcolpieces
  have hpre2 : ((("INSERT INTO " ++ (schema ++ "." ++ goToSQLName obj.typeName) ++ " (")
      ++ sepJoin "," (((prepareFields obj withPK).1).map (fun f => "\n\t" ++ getColumnName f)))
      ++ "\n)\nVALUES (").data.getLast? ≠ some ',' := by
    rw [getLast?_data_append _ "\n)\nVALUES (" (by decide)]
    decide
  have htrim2 := trimRightChar_join ',' ","
    ((("INSERT INTO " ++ (schema ++ "." ++ goToSQLName obj.typeName) ++ " (")
      ++ sepJoin "," (((prepareFields obj withPK).1).map (fun f => "\n\t" ++ getColumnName f)))
      ++ "\n)\nVALUES (")
    ((List.range ((prepareFields obj withPK).1).length).map
      (fun i => "\n\t$" ++ Nat.repr (i + 1)))
    (String.ext rfl) hpre2 hvalpieces
  unfold insertSQL
  dsimp only
  rw [show List.enum ((prepareFields obj withPK).1)
      = List.enumFrom 0 ((prepareFields obj withPK).1) from rfl]
  rw [hloop]
  dsimp only
  rw [htrim1, string_empty_append, htrim2, hp]
  refine congrArg some (String.ext ?_)
  simp [specInsertSQL, String.data_append, List.append_assoc]

/-! ### C3: the snake-case conversion -/

/-- The case-conversion rule as the specification words it: the first
character is lower-cased as is; every later character is lower-cased, with a
single underscore inserted before it when it is upper case. -/
def specSnakeCase (name : String) : String :=
  match name.data with
  | [] => ""
  | c :: cs =>
    ⟨c.toLower :: cs.flatMap (fun d => if d.isUpper then ['_', d.toLower] else [d.toLower])⟩

theorem char_toString_data (c : Char) : c.toString.data = [c] := rfl

theorem goToSQLName_loop (cs : List Char) (s : String) (hs : s ≠ "") :
    cs.foldl
      (fun s c => (if c.isUpper && !(s == "") then s ++ "_" else s) ++ c.toLower.toString)
      s
    = s ++ ⟨cs.flatMap (fun d => if d.isUpper then ['_', d.toLower] else [d.toLower])⟩ := by
  induction cs generalizing s with
  | nil =>
    apply String.ext
    simp
  | cons c cs ih =>
    have hbeq : (s == "") = false := by
      simpa using hs
    rw [List.foldl_cons, hbeq]
    by_cases hu : c.isUpper
    · rw [hu]
      have hne : (s ++ "_") ++ c.toLower.toString ≠ "" := by
        rw [← data_ne_nil_iff]
        simp
      rw [show (true && !false) = true from rfl, if_pos rfl, ih _ hne]
      apply String.ext
      simp [hu, char_toString_data]
    · have hu' : c.isUpper = false := by simpa using hu
      rw [hu']
      have hne : s ++ c.toLower.toString ≠ "" := by
        rw [← data_ne_nil_iff]
        simp [char_toString_data]
      rw [show (false && !false) = false from rfl, if_neg (by simp), ih _ hne]
      apply String.ext
      simp [hu', char_toString_data]

theorem goToSQLName_eq_specSnakeCase (name : String) :
    goToSQLName name = specSnakeCase name := by
  unfold goToSQLName specSnakeCase
  rcases hname : name.data with _ | ⟨c, cs⟩
  · rfl
  · rw [List.foldl_cons]
    have hcond : (c.isUpper && !(("" : String) == "")) = false := by
      rw [show (("" : String) == "") = true from rfl]
      simp
    have hstep : (if c.isUpper && !(("" : String) == "") then ("" : String) ++ "_" else "")
        ++ c.toLower.toString = c.toLower.toString := by
      simp only [hcond, Bool.false_eq_true, if_false]
      exact string_empty_append _
    rw [hstep, goToSQLName_loop cs c.toLower.toString
      (by rw [← data_ne_nil_iff]; simp [char_toString_data])]
    apply String.ext
    simp [char_toString_data]

theorem lower_not_upper (c : Char) (h : c.isLower = true) : c.isUpper = false := by
  simp only [Char.isLower, Bool.and_eq_true, decide_eq_true_eq] at h
  have h1 : (97 : Nat) ≤ c.val.toNat := h.1
  have hnot : ¬ c.val ≤ 90 := by
    intro hle
    have h2 : c.val.toNat ≤ (90 : Nat) := hle
    omega
  simp [Char.isUpper, hnot]

theorem toLower_fix (c : Char) (h : c = '_' ∨ c.isLower = true) : c.toLower = c := by
  rcases h with h | h
  · subst h
    decide
  · simp only [Char.isLower, Bool.and_eq_true, decide_eq_true_eq] at h
    unfold Char.toLower
    rw [if_neg]
    intro hcontra
    have h97 : (97 : Nat) ≤ c.toNat := h.1
    omega

theorem underscore_or_lower_not_upper (c : Char) (h : c = '_' ∨ c.isLower = true) :
    c.isUpper = false := by
  rcases h with h | h
  · subst h
    decide
  · exact lower_not_upper c h

theorem flatMap_rule_fixed (cs : List Char)
    (h : ∀ d ∈ cs, d = '_' ∨ d.isLower = true) :
    cs.flatMap (fun d => if d.isUpper then ['_', d.toLower] else [d.toLower]) = cs := by
  induction cs with
  | nil => rfl
  | cons d ds ih =>
    have hd := h d (by simp)
    rw [List.flatMap_cons, underscore_or_lower_not_upper d hd]
    simp only [Bool.false_eq_true, if_false, toLower_fix d hd]
    rw [ih (fun x hx => h x (by simp [hx]))]
    rfl

theorem specSnakeCase_fixed (name : String)
    (h : ∀ c ∈ name.data, c = '_' ∨ c.isLower = true) :
    specSnakeCase name = name := by
  obtain ⟨l⟩ := name
  rcases l with _ | ⟨c, cs⟩
  · rfl
  · apply String.ext
    show c.toLower
        :: cs.flatMap (fun d => if d.isUpper then ['_', d.toLower] else [d.toLower])
      = c :: cs
    have hc := h c (by simp)
    rw [toLower_fix c hc, flatMap_rule_fixed cs (fun x hx => h x (by simp [hx]))]

/-! ### `mergeErrs` characterization -/

theorem mergeErrs_foldl (l : List (Option String)) (s0 : String) :
    l.foldl (fun s e => match e with | some m => s ++ m ++ "\n" | none => s) s0
    = s0 ++ joinSuffixed "\n" (l.filterMap id) := by
  induction l generalizing s0 with
  | nil => simp [joinSuffixed, String.append_empty]
  | cons e l ih =>
    cases e with
    | none => simpa using ih s0
    | some m =>
      rw [List.foldl_cons]
      show l.foldl _ ((s0 ++ m) ++ "\n") = _
      rw [ih ((s0 ++ m) ++ "\n")]
      apply String.ext
      simp [joinSuffixed]

theorem filter_isSome_filterMap (l : List (Option String)) :
    (l.filter Option.isSome).filterMap id = l.filterMap id := by
  induction l with
  | nil => rfl
  | cons e l ih =>
    cases e with
    | none => simpa using ih
    | some m => simp [List.filter_cons, ih]

theorem mergeErrs_characterization (l : List (Option String))
    (h : ∀ m ∈ l.filterMap id, m.data ≠ [] ∧ m.data.getLast? ≠ some '\n') :
    mergeErrs l = if l.filterMap id = [] then none
      else some (sepJoin "\n" (l.filterMap id)) := by
  unfold mergeErrs
  rw [mergeErrs_foldl l ""]
  have htrim := trimRightChar_join '\n' "\n" "" (l.filterMap id)
    (String.ext rfl) (by simp) h
  show (if trimRightChar ("" ++ joinSuffixed "\n" (l.filterMap id)) '\n' ≠ "" then
      some (trimRightChar ("" ++ joinSuffixed "\n" (l.filterMap id)) '\n') else none) = _
  rw [htrim, string_empty_append]
  by_cases hm : l.filterMap id = []
  · rw [hm]
    simp [sepJoin]
  · rw [if_neg hm, if_pos]
    exact sepJoin_ne_empty "\n" _ hm (fun p hp => (h p hp).1)

/-! ### Positions in the repeat trace -/

theorem mem_body_start (n i : Nat) :
    RepeatEvent.taskStart i
      ∈ (List.range n).flatMap (fun j => [RepeatEvent.taskStart j, RepeatEvent.taskEnd j])
    ↔ i < n := by
  simp [List.mem_flatMap, List.mem_range, eq_comm]

theorem mem_body_end (n i : Nat) :
    RepeatEvent.taskEnd i
      ∈ (List.range n).flatMap (fun j => [RepeatEvent.taskStart j, RepeatEvent.taskEnd j])
    ↔ i < n := by
  simp [List.mem_flatMap, List.mem_range, eq_comm]

theorem barrier_not_mem_body (n : Nat) :
    RepeatEvent.barrier
      ∉ (List.range n).flatMap (fun j => [RepeatEvent.taskStart j, RepeatEvent.taskEnd j]) := by
  simp [List.mem_flatMap]

theorem epos_append_left (l₁ l₂ : List RepeatEvent) (e : RepeatEvent) (h : e ∈ l₁) :
    epos (l₁ ++ l₂) e = epos l₁ e := by
  induction l₁ with
  | nil => cases h
  | cons x xs ih =>
    by_cases hxe : x = e
    · simp [epos, hxe]
    · have hmem : e ∈ xs := by
        rcases List.mem_cons.mp h with h1 | h1
        · exact absurd h1.symm hxe
        · exact h1
      simp [epos, hxe, ih hmem]

theorem epos_append_right (l₁ l₂ : List RepeatEvent) (e : RepeatEvent) (h : e ∉ l₁) :
    epos (l₁ ++ l₂) e = l₁.length + epos l₂ e := by
  induction l₁ with
  | nil => simp
  | cons x xs ih =>
    have hxe : x ≠ e := fun hc => h (by simp [hc])
    have hrest : e ∉ xs := fun hc => h (by simp [hc])
    simp [epos, hxe, ih hrest]
    omega

theorem body_length (n : Nat) :
    ((List.range n).flatMap
      (fun j => [RepeatEvent.taskStart j, RepeatEvent.taskEnd j])).length = 2 * n := by
  induction n with
  | zero => rfl
  | succ n ih =>
    rw [List.range_succ, List.flatMap_append, List.length_append, ih]
    simp [List.flatMap]
    omega

theorem epos_body_start (n i : Nat) (h : i < n) :
    epos ((List.range n).flatMap
      (fun j => [RepeatEvent.taskStart j, RepeatEvent.taskEnd j]))
      (RepeatEvent.taskStart i) = 2 * i := by
  induction n with
  | zero => omega
  | succ n ih =>
    rw [List.range_succ, List.flatMap_append]
    rcases Nat.lt_or_ge i n with hin | hin
    · rw [epos_append_left _ _ _ ((mem_body_start n i).mpr hin)]
      exact ih hin
    · have hieq : i = n := by omega
      subst hieq
      rw [epos_append_right _ _ _ (fun hc => by
        have hlt := (mem_body_start _ _).mp hc
        omega)]
      rw [body_length]
      simp [List.flatMap, epos]

theorem epos_body_end (n i : Nat) (h : i < n) :
    epos ((List.range n).flatMap
      (fun j => [RepeatEvent.taskStart j, RepeatEvent.taskEnd j]))
      (RepeatEvent.taskEnd i) = 2 * i + 1 := by
  induction n with
  | zero => omega
  | succ n ih =>
    rw [List.range_succ, List.flatMap_append]
    rcases Nat.lt_or_ge i n with hin | hin
    · rw [epos_append_left _ _ _ ((mem_body_end n i).mpr hin)]
      exact ih hin
    · have hieq : i = n := by omega
      subst hieq
      rw [epos_append_right _ _ _ (fun hc => by
        have hlt := (mem_body_end _ _).mp hc
        omega)]
      rw [body_length]
      simp [List.flatMap, epos]

theorem epos_trace_start (n i : Nat) (h : i < n) :
    epos (repeatTrace n) (RepeatEvent.taskStart i) = 2 * i := by
  unfold repeatTrace
  rw [epos_append_left _ _ _ ((mem_body_start n i).mpr h)]
  exact epos_body_start n i h

theorem epos_trace_end (n i : Nat) (h : i < n) :
    epos (repeatTrace n) (RepeatEvent.taskEnd i) = 2 * i + 1 := by
  unfold repeatTrace
  rw [epos_append_left _ _ _ ((mem_body_end n i).mpr h)]
  exact epos_body_end n i h

theorem epos_trace_barrier (n : Nat) :
    epos (repeatTrace n) RepeatEvent.barrier = 2 * n := by
  unfold repeatTrace
  rw [epos_append_right _ _ _ (barrier_not_mem_body n), body_length]
  simp [epos]

/-! ### Concrete inputs used by the witnesses and counterexamples -/

/-- The primary-key field of the demonstration record. -/
def bookPKField : Field String :=
  { value := "0", typeof := "int64", name := "BookId", tag := "", isPrimary := true }

/-- A demonstration record shaped like the `Book` type of the test schema. -/
def bookRecord : Record String :=
  { typeName := "Book",
    fields :=
      [ bookPKField,
        { value := "The Martian", typeof := "string", name := "Title", tag := "",
          isPrimary := false },
        { value := "Andy Weir", typeof := "string", name := "Author", tag := "",
          isPrimary := false } ] }

/-- A record in which no field carries the `db_pk` marker. -/
def noPKRecord : Record String :=
  { typeName := "Book",
    fields :=
      [ { value := "The Martian", typeof := "string", name := "Title", tag := "",
          isPrimary := false } ] }

/-- A statement whose iteration with argument list `[1]` fails with `boom`. -/
def stmtDemo : Stmt Nat :=
  { get := fun args =>
      if args = [1] then Except.error "boom"
      else Except.ok { lastInsertId := 7, rowsAffected := 1 },
    select := fun _ => (none, 0) }

/-- A connection on which preparation always succeeds with `stmtDemo`. -/
def dbDemo : DB Nat :=
  { prepare := fun _ => Except.ok stmtDemo,
    getMeta := fun _ _ => Except.error "unused" }

/-- A repeat command of two insert iterations with per-iteration args `[i]`. -/
def rqDemo : RepeatCmd Nat :=
  { query := { sql := "INSERT", args := [], insert := true },
    paramsFn := fun i => [i],
    n := 2 }

/-- A statement every iteration of which fails with an empty error message. -/
def stmtEmptyMsg : Stmt Nat :=
  { get := fun _ => Except.error "", select := fun _ => (none, 0) }

/-- A connection preparing to `stmtEmptyMsg`. -/
def dbEmptyMsg : DB Nat :=
  { prepare := fun _ => Except.ok stmtEmptyMsg,
    getMeta := fun _ _ => Except.error "" }

/-- A repeat command with a single iteration. -/
def rqOne : RepeatCmd Nat :=
  { query := { sql := "INSERT", args := [], insert := true },
    paramsFn := fun _ => [], n := 1 }

/-- A repeat command with zero iterations. -/
def rqZero : RepeatCmd Nat :=
  { query := { sql := "INSERT", args := [], insert := true },
    paramsFn := fun _ => [], n := 0 }

/-- A connection on which preparation always fails. -/
def dbFail : DB Nat :=
  { prepare := fun _ => Except.error "connection refused",
    getMeta := fun _ _ => Except.error "connection refused" }

/-- A dummy connection for claims that must not touch the database. -/
def dbDummy : DB String :=
  { prepare := fun _ => Except.error "no db",
    getMeta := fun _ _ => Except.error "no db" }

/-! ### C3 -/

/-- C3: `goToSQLName` lower-cases every character and inserts exactly one
underscore before each upper-case letter that is not the first character
(this is `specSnakeCase`); it is the identity on strings already made of
underscores and lower-case letters; and the three named examples hold,
including the `ID ↦ i_d` edge case. -/
theorem goToSQLName_snake_case :
    (∀ name : String, goToSQLName name = specSnakeCase name)
    ∧ (∀ name : String, (∀ c ∈ name.data, c = '_' ∨ c.isLower = true) →
        goToSQLName name = name)
    ∧ goToSQLName "TransactionSource" = "transaction_source"
    ∧ goToSQLName "Name" = "name"
    ∧ goToSQLName "ID" = "i_d" := by
  refine ⟨goToSQLName_eq_specSnakeCase, ?_, by decide, by decide, by decide⟩
  intro name h
  rw [goToSQLName_eq_specSnakeCase]
  exact specSnakeCase_fixed name h

/-- Witness for C3 at the concrete already-snake-cased input `paper_shelf`. -/
theorem goToSQLName_snake_case_witness : goToSQLName "paper_shelf" = "paper_shelf" :=
  goToSQLName_snake_case.2.1 "paper_shelf" (by decide)

/-! ### C5 -/

/-- C5: for a record with exactly one primary field, inclusion of the
primary-key column/argument depends solely on the `withPK` flag: with
`withPK = false` it is omitted and all other fields appear in declaration
order; with `withPK = true` the full declaration-order field list (the
primary field in its declared position) is used; the non-primary
columns/arguments are identical under both flag values. -/
theorem primary_key_inclusion_flag {α : Type} (obj : Record α)
    (h : (obj.fields.filter (fun f => f.isPrimary)).length = 1) :
    (prepareFields obj false).1 = obj.fields.filter (fun f => !f.isPrimary)
    ∧ (prepareFields obj true).1 = obj.fields
    ∧ (prepareFields obj true).1.filter (fun f => !f.isPrimary)
        = (prepareFields obj false).1
    ∧ insertArgs obj false = (obj.fields.filter (fun f => !f.isPrimary)).map Field.value
    ∧ insertArgs obj true = obj.fields.map Field.value := by
  have h0 : (prepareFields obj false).1 = obj.fields.filter (fun f => !f.isPrimary) := by
    rw [prepareFields_fst]
    simp
  have h1 : (prepareFields obj true).1 = obj.fields := by
    rw [prepareFields_fst]
    simp
  refine ⟨h0, h1, ?_, ?_, ?_⟩
  · rw [h1, h0]
  · unfold insertArgs
    rw [h0]
  · unfold insertArgs
    rw [h1]

/-- Witness for C5 on the concrete `bookRecord`. -/
theorem primary_key_inclusion_flag_witness :
    (prepareFields bookRecord true).1 = bookRecord.fields :=
  (primary_key_inclusion_flag bookRecord (by decide)).2.1

/-! ### C6 -/

/-- C6: after `setMeta` on a fresh result, the observed id and count are
always stored, the last-insert-id error is set exactly when the observed id
is the sentinel `0`, and the rows-affected error exactly when the observed
count is the sentinel `-1`. -/
theorem setMeta_sentinel_errors (m : Meta) :
    (NewResult.setMeta m).lastInsertId.id = m.lastInsertId
    ∧ (NewResult.setMeta m).rowsAffected.count = m.rowsAffected
    ∧ ((NewResult.setMeta m).lastInsertId.err ≠ none ↔ m.lastInsertId = 0)
    ∧ ((NewResult.setMeta m).rowsAffected.err ≠ none ↔ m.rowsAffected = -1) := by
  unfold NewResult Result.setMeta
  refine ⟨rfl, rfl, ?_, ?_⟩ <;>
  · dsimp only
    split <;> simp_all

/-- Witness for C6 at the concrete meta `{0, 5}`. -/
theorem setMeta_sentinel_errors_witness :
    ((NewResult.setMeta { lastInsertId := 0, rowsAffected := 5 }).lastInsertId.err ≠ none
      ↔ (0 : Int) = 0) :=
  (setMeta_sentinel_errors { lastInsertId := 0, rowsAffected := 5 }).2.2.1

/-! ### C8 -/

/-- C8: `InsertAll` on a non-slice input returns nil results and the
introspection error; on an empty slice it returns nil results and the
empty-batch error — for every connection, so nothing is generated or run. -/
theorem insertAll_rejects_non_slice_and_empty {α : Type} (db : DB α) (s : String) :
    insertAll db s GoInput.nonSlice = some (none, some "value is not a slice")
    ∧ insertAll db s (GoInput.slice []) = some (none, some "empty slice") :=
  ⟨rfl, rfl⟩

/-- Witness for C8 on the concrete failing connection. -/
theorem insertAll_rejects_witness :
    insertAll dbDummy "paper" GoInput.nonSlice
      = some (none, some "value is not a slice") :=
  (insertAll_rejects_non_slice_and_empty dbDummy "paper").1

/-! ### C9 -/

/-- C9 counterexample: on a driver result of two rows, `ExecSingle` does not
fail: it binds the first row, reports success and `RowsReturned = 1`,
contradicting the claim that not-exactly-one row is an error. -/
theorem execSingle_two_rows_cex :
    (execSingle [(10 : Int), 20]).1.err = none
    ∧ (execSingle [(10 : Int), 20]).1.rowsReturned = 1
    ∧ (execSingle [(10 : Int), 20]).2 = some 10 := by decide

/-- C9 (amended): `ExecSingle` fails (error set, `RowsReturned` 0) exactly
when the driver returns zero rows; with one or more rows it succeeds, binds
the first row and reports `RowsReturned = 1`. -/
theorem execSingle_row_behavior {ρ : Type} (rows : List ρ) :
    ((execSingle rows).1.err
      = if rows.isEmpty then some "sql: no rows in result set" else none)
    ∧ ((execSingle rows).1.rowsReturned = if rows.isEmpty then 0 else 1)
    ∧ (execSingle rows).2 = rows.head? := by
  cases rows <;> simp [execSingle, dbGet, NewResult]

/-- Witness for C9 on the concrete empty row set. -/
theorem execSingle_row_behavior_witness :
    (execSingle ([] : List Int)).1.err = some "sql: no rows in result set" := by
  have h := (execSingle_row_behavior ([] : List Int)).1
  simpa using h

/-! ### C10 -/

theorem insertSQL_eq_none_iff {α : Type} (obj : Record α) (s : String) (w : Bool) :
    insertSQL obj s w = none ↔ (prepareFields obj w).2 = none := by
  unfold insertSQL
  dsimp only
  rcases hsnd : (prepareFields obj w).2 with _ | p <;> simp [hsnd]

/-- C10: when no field is marked primary, `prepareFields` reports no primary
field and `insertSQL` does not produce a statement (the nil `primary` is
dereferenced while building the `RETURNING` clause — a panic, modelled as
`none`); consequently `GenerateInsert`, `Schema.Insert` and `Schema.InsertAll`
crash as well.  The builder is total exactly when some field is primary. -/
theorem insertSQL_requires_primary {α : Type} (db : DB α) (obj : Record α)
    (schemaName : String) (withPK : Bool) (rest : List (Record α)) :
    (insertSQL obj schemaName withPK = none ↔ ∀ f ∈ obj.fields, f.isPrimary = false)
    ∧ (insertSQL obj schemaName withPK = none →
        (prepareFields obj withPK).2 = none
        ∧ generateInsertQuery obj schemaName withPK = none
        ∧ schemaInsert db schemaName obj = none
        ∧ insertAll db schemaName (GoInput.slice (obj :: rest)) = none) := by
  have hiff := (insertSQL_eq_none_iff obj schemaName withPK).trans
    (prepareFields_snd_eq_none_iff obj withPK)
  refine ⟨hiff, fun hnone => ?_⟩
  have hfields : ∀ f ∈ obj.fields, f.isPrimary = false := hiff.mp hnone
  have hsnd : (prepareFields obj withPK).2 = none :=
    (prepareFields_snd_eq_none_iff obj withPK).mpr hfields
  have hnoneF : insertSQL obj schemaName false = none :=
    (insertSQL_eq_none_iff obj schemaName false).mpr
      ((prepareFields_snd_eq_none_iff obj false).mpr hfields)
  refine ⟨hsnd, ?_, ?_, ?_⟩
  · simp [generateInsertQuery, hnone]
  · simp [schemaInsert, hnoneF]
  · simp [insertAll, convertToSlice, generateInsertQuery, hnoneF]

/-- Witness for C10 on the concrete primary-key-less record. -/
theorem insertSQL_requires_primary_witness :
    insertAll dbDummy "paper" (GoInput.slice [noPKRecord]) = none :=
  ((insertSQL_requires_primary dbDummy noPKRecord "paper" false []).2
    ((insertSQL_requires_primary dbDummy noPKRecord "paper" false []).1.mpr
      (by decide))).2.2.2

/-! ### C1 witness -/

/-- Witness for C1 on the concrete `bookRecord` in schema `paper`. -/
theorem insertSQL_alignment_witness :
    insertSQL bookRecord "paper" false
      = some (specInsertSQL bookRecord "paper" false bookPKField) :=
  (insertSQL_column_placeholder_arg_alignment bookRecord "paper" false bookPKField
    (by decide) (by decide)).1

/-! ### C4 -/

/-- C4 counterexample: with two iterations, the tasks are not all launched
up front — iteration 0 has already completed before iteration 1 is even
started (the closure is invoked synchronously; the `go` keyword is absent),
so the two task lifetimes never overlap and execution is not concurrent. -/
theorem repeat_not_concurrent_cex :
    ¬ (epos (repeatTrace 2) (RepeatEvent.taskStart 0)
          < epos (repeatTrace 2) (RepeatEvent.taskEnd 1)
        ∧ epos (repeatTrace 2) (RepeatEvent.taskStart 1)
          < epos (repeatTrace 2) (RepeatEvent.taskEnd 0)) := by
  decide

/-- C4 (amended): `Repeat.Exec` runs its iterations sequentially: every task
starts before it ends, every task ends before the wait-group barrier, and a
task with a smaller index ends strictly before a task with a larger index
starts — one task at a time, not concurrently. -/
theorem repeat_sequential_schedule (n i j : Nat) (hi : i < n) (hj : j < n) :
    epos (repeatTrace n) (RepeatEvent.taskStart i)
        < epos (repeatTrace n) (RepeatEvent.taskEnd i)
    ∧ epos (repeatTrace n) (RepeatEvent.taskEnd i)
        < epos (repeatTrace n) RepeatEvent.barrier
    ∧ (i < j → epos (repeatTrace n) (RepeatEvent.taskEnd i)
        < epos (repeatTrace n) (RepeatEvent.taskStart j)) := by
  rw [epos_trace_start n i hi, epos_trace_end n i hi, epos_trace_barrier n]
  refine ⟨by omega, by omega, fun hij => ?_⟩
  rw [epos_trace_start n j hj]
  omega

/-- Witness for C4 (amended) at the concrete trace of two iterations. -/
theorem repeat_sequential_schedule_witness :
    epos (repeatTrace 2) (RepeatEvent.taskEnd 0)
      < epos (repeatTrace 2) (RepeatEvent.taskStart 1) :=
  (repeat_sequential_schedule 2 0 1 (by decide) (by decide)).2.2 (by decide)

/-! ### C7 -/

/-- C7 counterexample: with `N = 0` and a failing connection, `Repeat.Exec`
still prepares the statement and returns the preparation error — not an
empty results list with a nil combined error as the claim states. -/
theorem repeat_zero_still_prepares_cex :
    repeatExec dbFail rqZero = (none, some "connection refused")
    ∧ repeatExec dbFail rqZero ≠ (some [], none) := by
  decide

/-- C7 (amended): `Repeat.Exec` with `N = 0` does prepare the statement; if
preparation fails the preparation error is returned (nil results); if it
succeeds the result is the empty list with a nil combined error, no iteration
runs, and the parameter function is never consulted (the outcome does not
depend on it). -/
theorem repeat_zero_iterations {α : Type} (db : DB α) (rq : RepeatCmd α)
    (h : rq.n = 0) :
    (∀ e, db.prepare rq.query.sql = Except.error e → repeatExec db rq = (none, some e))
    ∧ (∀ stmt, db.prepare rq.query.sql = Except.ok stmt →
        repeatExec db rq = (some [], none))
    ∧ (∀ f, repeatExec db { rq with paramsFn := f } = repeatExec db rq) := by
  have hme : mergeErrs ([] : List (Option String)) = none := by decide
  refine ⟨?_, ?_, ?_⟩
  · intro e he
    unfold repeatExec
    rw [he]
  · intro stmt hs
    unfold repeatExec
    rw [hs]
    show (some ((List.range rq.n).map (iterResult stmt rq)),
        mergeErrs (((((List.range rq.n).map (iterResult stmt rq))).map
          Result.err).filter Option.isSome)) = (some [], none)
    rw [h]
    simpa using hme
  · intro f
    unfold repeatExec
    rcases hq : db.prepare rq.query.sql with e | stmt
    · rfl
    · simp [h]

/-- Witness for C7 (amended) at the concrete zero-iteration command. -/
theorem repeat_zero_iterations_witness :
    repeatExec dbDemo rqZero = (some [], none) :=
  (repeat_zero_iterations dbDemo rqZero rfl).2.1 stmtDemo rfl

/-! ### C2 -/

/-- The error messages of the failing iterations, in iteration order. -/
def failMsgs {α : Type} (stmt : Stmt α) (rq : RepeatCmd α) : List String :=
  ((List.range rq.n).map (fun i => (iterResult stmt rq i).err)).filterMap id

/-- C2 counterexample: a single iteration failing with an empty error message
gives `results[0].Err` non-nil and yet a nil combined error (the merged
string is empty after trimming), refuting the claimed "combined error is
non-nil iff at least one iteration's `Result.Err` is non-nil". -/
theorem repeat_combined_error_iff_cex :
    (((repeatExec dbEmptyMsg rqOne).1.getD []).getD 0 NewResult).err = some ""
    ∧ (repeatExec dbEmptyMsg rqOne).2 = none := by
  decide

/-- C2 (amended): when preparation succeeds, `Repeat.Exec` returns a results
slice of length N whose i-th entry is the Result of executing iteration i's
arguments; provided the failing iterations' error messages are non-empty and
newline-free, the combined error is nil exactly when no iteration failed and
otherwise is the newline-join of the failing iterations' messages in
iteration order. -/
theorem repeat_results_and_merged_error {α : Type} (db : DB α) (rq : RepeatCmd α)
    (stmt : Stmt α)
    (hprep : db.prepare rq.query.sql = Except.ok stmt)
    (hmsgs : ∀ i, i < rq.n →
      ((iterResult stmt rq i).err.all
        (fun m => !(m == "") && m.data.all (fun c => !(c == '\n')))) = true) :
    (repeatExec db rq).1 = some ((List.range rq.n).map (iterResult stmt rq))
    ∧ ((repeatExec db rq).1.getD []).length = rq.n
    ∧ (∀ i, i < rq.n →
        ((repeatExec db rq).1.getD []).getD i NewResult = iterResult stmt rq i)
    ∧ ((repeatExec db rq).2 ≠ none ↔
        ∃ i, i < rq.n ∧ (((repeatExec db rq).1.getD []).getD i NewResult).err ≠ none)
    ∧ (repeatExec db rq).2
        = (if failMsgs stmt rq = [] then none
           else some (sepJoin "\n" (failMsgs stmt rq))) := by
  have hmapmap : (((List.range rq.n).map (iterResult stmt rq)).map Result.err)
      = (List.range rq.n).map (fun i => (iterResult stmt rq i).err) := by
    rw [List.map_map]
    rfl
  have hexec : repeatExec db rq
      = (some ((List.range rq.n).map (iterResult stmt rq)),
         mergeErrs ((((List.range rq.n).map (iterResult stmt rq)).map
           Result.err).filter Option.isSome)) := by
    unfold repeatExec
    rw [hprep]
  rw [hmapmap] at hexec
  have hgetD : ∀ i, i < rq.n →
      ((List.range rq.n).map (iterResult stmt rq)).getD i NewResult
        = iterResult stmt rq i := by
    intro i hi
    rw [List.getD_eq_getElem?_getD, List.getElem?_map, List.getElem?_range hi]
    rfl
  have hmsgs' : ∀ m ∈ failMsgs stmt rq, m.data ≠ [] ∧ m.data.getLast? ≠ some '\n' := by
    intro m hm
    rcases List.mem_filterMap.mp hm with ⟨o, ho, hoid⟩
    have hosome : o = some m := hoid
    subst hosome
    rcases List.mem_map.mp ho with ⟨i, hi, herr⟩
    have hib := hmsgs i (List.mem_range.mp hi)
    rw [herr] at hib
    simp only [Option.all_some, Bool.and_eq_true] at hib
    refine ⟨(data_ne_nil_iff m).mpr (by simpa using hib.1), ?_⟩
    intro hc
    have hmem := List.mem_of_mem_getLast? (show '\n' ∈ m.data.getLast? from hc)
    have hall := List.all_eq_true.mp hib.2 '\n' hmem
    simp at hall
  have hside : ∀ m ∈ (((List.range rq.n).map
      (fun i => (iterResult stmt rq i).err)).filter Option.isSome).filterMap id,
      m.data ≠ [] ∧ m.data.getLast? ≠ some '\n' := by
    intro m hm
    rw [filter_isSome_filterMap] at hm
    exact hmsgs' m hm
  have hchar := mergeErrs_characterization _ hside
  rw [filter_isSome_filterMap] at hchar
  refine ⟨?_, ?_, ?_, ?_, ?_⟩
  · rw [hexec]
  · rw [hexec]
    simp
  · intro i hi
    rw [hexec]
    simpa using hgetD i hi
  · rw [hexec]
    show mergeErrs _ ≠ none ↔ _
    rw [hchar]
    constructor
    · intro hne
      by_cases hfm : ((List.range rq.n).map
          (fun i => (iterResult stmt rq i).err)).filterMap id = []
      · rw [if_pos hfm] at hne
        exact absurd rfl hne
      · obtain ⟨m, hmem⟩ := List.exists_mem_of_ne_nil _ hfm
        rcases List.mem_filterMap.mp hmem with ⟨o, ho, hoid⟩
        have hosome : o = some m := hoid
        subst hosome
        rcases List.mem_map.mp ho with ⟨i, hi, herr⟩
        refine ⟨i, List.mem_range.mp hi, ?_⟩
        simp only [Option.getD_some]
        rw [hgetD i (List.mem_range.mp hi), herr]
        simp
    · rintro ⟨i, hi, hne⟩
      simp only [Option.getD_some] at hne
      rw [hgetD i hi] at hne
      have hfm : ((List.range rq.n).map
          (fun i => (iterResult stmt rq i).err)).filterMap id ≠ [] := by
        intro hempty
        refine hne ?_
        exact List.forall_none_of_filterMap_eq_nil hempty _
          (List.mem_map.mpr ⟨i, List.mem_range.mpr hi, rfl⟩)
      rw [if_neg hfm]
      simp
  · rw [hexec]
    exact hchar

/-- Witness for C2 (amended) on the concrete two-iteration command whose
second iteration fails with message `boom`. -/
theorem repeat_results_witness :
    (repeatExec dbDemo rqDemo).2
      = (if failMsgs stmtDemo rqDemo = [] then none
         else some (sepJoin "\n" (failMsgs stmtDemo rqDemo))) :=
  (repeat_results_and_merged_error dbDemo rqDemo stmtDemo rfl (by decide)).2.2.2.2

end Papergres






